import Mathlib

/-!
Verification of the spreadsheet normalization pipeline of the CCS_REPORT
repository against its natural-language specification.

The repository contains two JavaScript implementations of the same
pipeline: a serverless upload handler (`api` file, called `ApiUpload`
below) and an Express route in `server/server.js` (called `ServerJs`
below).  Both are transcribed here over a small model of the JavaScript
values they manipulate.
-/

/-- Values flowing through the pipeline: JavaScript strings and numbers.
Numbers are modelled as rationals; the pipeline performs only exact
decimal arithmetic on them, and no cell value in this model is NaN or
Infinity. -/
inductive JSVal where
  | str (s : String)
  | num (q : ℚ)
deriving DecidableEq, Repr

/-- JavaScript truthiness for the modelled values: a string is truthy iff
it is non-empty, a number iff it is non-zero. -/
def jsTruthy : JSVal → Bool
  | JSVal.str s => decide (s ≠ "")
  | JSVal.num q => decide (q ≠ 0)

/-- The JavaScript expression `a || b` restricted to the modelled values. -/
def jsOr (a b : JSVal) : JSVal := if jsTruthy a then a else b

/-! Rational arithmetic helpers.  The standard `ℚ` operations of this
Mathlib version are `@[irreducible]`, which blocks evaluation inside
`decide`/`rfl` proofs; the pipeline therefore computes with the following
kernel-reducible formulations, each proved equal to the standard
operation. -/

/-- Product of rationals as a reduced fraction. -/
def ratMul (a b : ℚ) : ℚ := mkRat (a.num * b.num) (a.den * b.den)

/-- Difference of rationals as a reduced fraction. -/
def ratSub (a b : ℚ) : ℚ := mkRat (a.num * b.den - b.num * a.den) (a.den * b.den)

/-- Negation of a rational. -/
def ratNeg (q : ℚ) : ℚ := mkRat (-q.num) q.den

/-- Absolute value of a rational. -/
def ratAbs (q : ℚ) : ℚ := mkRat q.num.natAbs q.den

/-- Floor of a rational (the denominator is positive, so flooring the
fraction is floor division of the numerator). -/
def ratFloor (q : ℚ) : ℤ := Int.fdiv q.num q.den

theorem rat_num_eq (r : ℚ) : (r.num : ℚ) = r * r.den := by
  have h := Rat.num_div_den r
  rw [div_eq_iff (show ((r.den : ℚ)) ≠ 0 by positivity)] at h
  exact h

theorem ratMul_eq (a b : ℚ) : ratMul a b = a * b := by
  unfold ratMul
  rw [Rat.mkRat_eq_div]
  push_cast
  rw [← div_mul_div_comm, Rat.num_div_den, Rat.num_div_den]

theorem ratSub_eq (a b : ℚ) : ratSub a b = a - b := by
  unfold ratSub
  rw [Rat.mkRat_eq_div]
  push_cast
  field_simp
  rw [rat_num_eq a, rat_num_eq b]
  ring

theorem ratNeg_eq (q : ℚ) : ratNeg q = -q := by
  unfold ratNeg
  rw [Rat.mkRat_eq_div]
  push_cast
  rw [neg_div, Rat.num_div_den]

theorem ratAbs_eq (q : ℚ) : ratAbs q = |q| := by
  unfold ratAbs
  rw [Rat.mkRat_eq_div]
  push_cast
  conv_rhs => rw [← Rat.num_div_den q]
  rw [abs_div]
  congr 1
  exact (abs_of_pos (by positivity)).symm

theorem ratFloor_eq (q : ℚ) : ratFloor q = ⌊q⌋ := by
  unfold ratFloor
  rw [Rat.floor_def]
  exact Int.fdiv_eq_ediv _ (by positivity)

/-- JavaScript `Math.round`: round half toward positive infinity,
`⌊q + 1/2⌋`, computed as a floor division. -/
def jsRound (q : ℚ) : ℤ := Int.fdiv (2 * q.num + q.den) (2 * q.den)

theorem jsRound_eq (q : ℚ) : jsRound q = ⌊q + 1 / 2⌋ := by
  unfold jsRound
  rw [Int.fdiv_eq_ediv _ (by positivity)]
  have h : q + 1 / 2 = ((2 * q.num + (q.den : ℤ) : ℤ) : ℚ) / ((2 * q.den : ℕ) : ℚ) := by
    have hden : ((q.den : ℚ)) ≠ 0 := by positivity
    push_cast
    field_simp
    rw [rat_num_eq q]
    ring
  rw [h, Rat.floor_intCast_div_natCast]
  push_cast
  rfl

/-- JavaScript `s.padStart(2, "0")`. -/
def padStart2 (s : String) : String :=
  if s.length = 0 then "00" else if s.length = 1 then "0" ++ s else s

/-- Characters of a string, trimmed of leading and trailing whitespace:
the model of JavaScript `String.prototype.trim` used throughout (Lean's
built-in string functions recurse on byte positions and are opaque to the
kernel, so the pipeline is modelled with structurally recursive character
list operations instead). -/
def jsTrim (s : String) : String :=
  ⟨(((s.data.dropWhile Char.isWhitespace).reverse.dropWhile
      Char.isWhitespace).reverse)⟩

/-- JavaScript `toUpperCase` on the ASCII range. -/
def strUpper (s : String) : String := ⟨s.data.map Char.toUpper⟩

/-- JavaScript `toLowerCase` on the ASCII range. -/
def strLower (s : String) : String := ⟨s.data.map Char.toLower⟩

/-- Whether `pat` is a prefix of `l` (structurally recursive). -/
def startsWithList : List Char → List Char → Bool
  | [], _ => true
  | _ :: _, [] => false
  | p :: ps, x :: xs => p == x && startsWithList ps xs

/-- Whether `pat` occurs as a contiguous run inside `l`. -/
def hasInfixList (pat : List Char) : List Char → Bool
  | [] => pat.isEmpty
  | x :: xs => startsWithList pat (x :: xs) || hasInfixList pat xs

/-- JavaScript `s.startsWith(pat)`. -/
def strStartsWith (s pat : String) : Bool := startsWithList pat.data s.data

/-- Split a character list at every occurrence of the separator
character; mirrors `String.splitOn` with a one-character separator. -/
def splitOnChar (sep : Char) (l : List Char) : List (List Char) :=
  l.foldr (fun x acc =>
    if x = sep then [] :: acc
    else match acc with
      | h :: t => (x :: h) :: t
      | [] => [[x]]) [[]]

/-- Decimal digits of the fractional part of a non-negative rational,
with a fuel bound on the number of digits produced. -/
def fracDigitString : ℚ → Nat → String
  | _, 0 => ""
  | r, k + 1 =>
    if r = 0 then ""
    else
      let r10 := ratMul r 10
      toString (ratFloor r10).toNat
        ++ fracDigitString (ratSub r10 (mkRat (ratFloor r10) 1)) k

/-- Model of JavaScript number-to-string conversion, exact on integers and
on terminating decimal fractions of at most 20 digits; every number this
pipeline stringifies is of that shape. -/
def jsNumToString (q : ℚ) : String :=
  let a := ratAbs q
  let frac := fracDigitString (ratSub a (mkRat (ratFloor a) 1)) 20
  (if q < 0 then "-" else "") ++ toString (ratFloor a).toNat
    ++ (if frac = "" then "" else "." ++ frac)

/-- JavaScript `String(value)` / `value.toString()` on the modelled values. -/
def jsToString : JSVal → String
  | JSVal.str s => s
  | JSVal.num q => jsNumToString q

/-- Numeric value of a run of decimal digit characters (helper for the
`Number` model). -/
def digitsToNat (l : List Char) : ℕ :=
  l.foldl (fun n c => n * 10 + (c.toNat - 48)) 0

/-- Model of the JavaScript `Number(string)` coercion: the string is
trimmed; an empty remainder coerces to `0`; an optionally signed decimal
literal (digits with at most one point and at least one digit) coerces to
its value; anything else is NaN, modelled as `none`.  (JavaScript also
accepts hex, binary and exponent literals; no input relevant to this
pipeline uses them.) -/
def jsStringToNumber (s : String) : Option ℚ :=
  let t := jsTrim s
  if t = "" then some 0
  else
    let signApply : ℚ → ℚ := fun v => if strStartsWith t "-" then ratNeg v else v
    let body :=
      if strStartsWith t "-" || strStartsWith t "+" then t.data.tail else t.data
    match splitOnChar (Char.ofNat 46) body with
    | [ip] =>
      if decide (ip ≠ []) && ip.all Char.isDigit then
        some (signApply (mkRat (digitsToNat ip) 1))
      else none
    | [ip, fp] =>
      if (decide (ip ≠ []) || decide (fp ≠ [])) && ip.all Char.isDigit
          && fp.all Char.isDigit then
        some (signApply
          (mkRat (digitsToNat ip * 10 ^ fp.length + digitsToNat fp) (10 ^ fp.length)))
      else none
    | _ => none

/-- JavaScript `Number(value)` on the modelled values (`none` is NaN). -/
def jsToNumber : JSVal → Option ℚ
  | JSVal.num q => some q
  | JSVal.str s => jsStringToNumber s

/-- Truthiness of a possibly-undefined value (`undefined` is falsy). -/
def jsTruthyO : Option JSVal → Bool
  | none => false
  | some v => jsTruthy v

/-- JavaScript `Number` of a possibly-undefined value: `Number(undefined)`
is NaN. -/
def jsToNumberO : Option JSVal → Option ℚ
  | none => none
  | some v => jsToNumber v

/-- JavaScript stringification of a possibly-undefined value. -/
def jsToStringO : Option JSVal → String
  | none => "undefined"
  | some v => jsToString v

/-- JavaScript `haystack.includes(needle)` substring test. -/
def strIncludes (s pat : String) : Bool := hasInfixList pat.data s.data

/-- A decoded spreadsheet cell as the `xlsx` library presents it: an
optional pre-formatted display string `w` and an optional raw value `v`. -/
structure Cell where
  w : Option String
  v : Option JSVal
deriving DecidableEq, Repr

/-- A worksheet is a cell lookup: `ws r c` is the cell at row `r`,
column `c`, or `none` when that cell is absent. -/
abbrev Worksheet := Nat → Nat → Option Cell

/-- The inclusive reference range of the worksheet, as decoded from
`worksheet["!ref"]`: start row/column and end row/column. -/
structure SheetRange where
  sr : Nat
  sc : Nat
  er : Nat
  ec : Nat
deriving DecidableEq, Repr

/-- Row records are JavaScript objects: insertion-ordered string-keyed
maps. -/
abbrev Obj := List (String × JSVal)

/-- Property lookup `obj[key]` (`none` is `undefined`). -/
def objGet : Obj → String → Option JSVal
  | [], _ => none
  | (k, v) :: rest, key => if k = key then some v else objGet rest key

/-- Property assignment `obj[key] = val`: overwrite in place when the key
exists, append otherwise (JavaScript objects keep insertion order). -/
def objSet : Obj → String → JSVal → Obj
  | [], key, val => [(key, val)]
  | (k, v) :: rest, key, val =>
    if k = key then (k, val) :: rest else (k, v) :: objSet rest key val

/-- Status bundle returned by the classification helper: the `status`,
`color` and `type` fields of the source's `getStatusInfo`. -/
structure StatusInfo where
  status : String
  color : String
  type : String
deriving DecidableEq, Repr

/-- Matcher for the anchored regular expression `\d{1,2}` on a whole
string. -/
def digitRun1to2 (l : List Char) : Bool :=
  decide (l.length = 1 ∨ l.length = 2) && l.all Char.isDigit

/-- Matcher for the anchored time pattern `\d{1,2}:\d{2}`.  The pattern
contains exactly one colon and digits are not colons, so a string matches
iff it splits on a single colon into a 1-2 digit run and a 2 digit
run. -/
def isTimeText (s : String) : Bool :=
  match splitOnChar (Char.ofNat 58) s.data with
  | [a, b] => digitRun1to2 a && decide (b.length = 2) && b.all Char.isDigit
  | _ => false

/-- Matcher for the anchored date pattern `\d{1,2}-[A-Za-z]{3}` (one
dash, digits before, three ASCII letters after). -/
def isDateText (s : String) : Bool :=
  match splitOnChar (Char.ofNat 45) s.data with
  | [a, b] => digitRun1to2 a && decide (b.length = 3) && b.all Char.isAlpha
  | _ => false

/-- A concrete worksheet built from an association list of
`(row, column, cell)` entries, used to evaluate the pipeline on explicit
grids. -/
def wsOfList (entries : List (Nat × Nat × Cell)) : Worksheet :=
  fun r c =>
    (entries.find? (fun e => e.1 == r && e.2.1 == c)).map (fun e => e.2.2)

namespace ApiUpload

/-! Transcription of the normalization pipeline of the serverless upload
handler (the `api` source file). -/

/-- Transcription of `convertExcelTime`: non-numbers are returned
unchanged; a number is read as a fraction of a day and rendered as
zero-padded `HH:MM`.  JavaScript computes `Math.floor(totalMinutes/60)`
and the `%` remainder; at every call site the serial lies in `[0, 1)`, so
`totalMinutes` is non-negative and `Int.fdiv` / `%` on `ℤ` agree with the
JavaScript operators. -/
def convertExcelTime (serial : JSVal) : JSVal :=
  match serial with
  | JSVal.str _ => serial
  | JSVal.num q =>
    let totalMinutes : ℤ := jsRound (ratMul (ratMul q 24) 60)
    let hours : ℤ := (Int.fdiv totalMinutes 60) % 24
    let minutes : ℤ := totalMinutes % 60
    JSVal.str (padStart2 (toString hours) ++ ":" ++ padStart2 (toString minutes))

/-- The `cell.v` branch of `getFormattedCellValue`: a numeric raw value in
`[0, 1)` is converted to a time string, any other raw value is returned
unchanged, and a missing raw value yields the empty string. -/
def cellRawValue (cell : Cell) : JSVal :=
  match cell.v with
  | some (JSVal.num q) =>
    if 0 ≤ q ∧ q < 1 then convertExcelTime (JSVal.num q) else JSVal.num q
  | some (JSVal.str s) => JSVal.str s
  | none => JSVal.str ""

/-- Transcription of `getFormattedCellValue`: an absent cell resolves to
the empty string; a truthy pre-formatted display string `w` is used
verbatim; otherwise the raw value is resolved per `cellRawValue`. -/
def getFormattedCellValue (worksheet : Worksheet) (r c : Nat) : JSVal :=
  match worksheet r c with
  | none => JSVal.str ""
  | some cell =>
    match cell.w with
    | some w => if w ≠ "" then JSVal.str w else cellRawValue cell
    | none => cellRawValue cell

/-- Transcription of `getStatusInfo`.  The source first tests
`!value || value === null || value === undefined || value === ''`, which
on the modelled values is exactly falsiness. -/
def getStatusInfo (value : JSVal) : StatusInfo :=
  if ! jsTruthy value then StatusInfo.mk "NA" "#d9d9d9" "default"
  else
    let strValue := jsTrim (strUpper (jsToString value))
    if strValue ∈ ["ACTIVE", "PASS", "ENABLED", "UNSUSPENDED"] then
      StatusInfo.mk strValue "#00B050" "success"
    else if strValue ∈ ["OFF", "FAILED", "INACTIVE", "SUSPENDED"] then
      StatusInfo.mk strValue "#FF0000" "error"
    else if strValue ∈ ["PENDING"] then
      StatusInfo.mk strValue "#FFC000" "warning"
    else if isTimeText strValue then
      if strValue = "00:00" then StatusInfo.mk strValue "#d9d9d9" "default"
      else StatusInfo.mk strValue "#0070C0" "processing"
    else if isDateText strValue then
      StatusInfo.mk strValue "#7030A0" "purple"
    else if strValue = "NA" then
      StatusInfo.mk "NA" "#d9d9d9" "default"
    else
      StatusInfo.mk strValue "#0070C0" "info"

/-- Header extraction loop: one entry per column of the range, the
resolved header cell or, when that value is falsy, the placeholder
`"Column"` followed by the 1-based column position. -/
def extractHeaders (worksheet : Worksheet) (range : SheetRange) : List JSVal :=
  (List.range' range.sc (range.ec + 1 - range.sc)).map (fun col =>
    jsOr (getFormattedCellValue worksheet range.sr col)
      (JSVal.str ("Column" ++ toString (col + 1))))

/-- The header-to-canonical-name mapping: the three `includes` rules of
the source, checked in order, defaulting to the header itself. -/
def cleanHeaderName (header : String) : String :=
  let lower := strLower header
  if strIncludes lower "s.no" || strIncludes lower "s no" || decide (lower = "s.no") then
    "S.No"
  else if strIncludes lower "job" && strIncludes lower "detail" then
    "Job Details"
  else if strIncludes lower "comment" then
    "Comments"
  else header

/-- One iteration of the inner column loop of the row-processing pass.
A falsy header is skipped; `header.startsWith` on a (truthy) numeric
header raises a TypeError, surfaced through `Except.error`; a header
starting with `"Column"` is skipped; otherwise the resolved cell value is
stored under the canonical name, with a status bundle added for
non-text columns. -/
def processRowCol (worksheet : Worksheet) (headers : List JSVal) (sc row : Nat)
    (rowData : Obj) (col : Nat) : Except String Obj :=
  let header := headers.getD (col - sc) (JSVal.str "")
  let cellValue := getFormattedCellValue worksheet row col
  if ! jsTruthy header then Except.ok rowData
  else
    match header with
    | JSVal.num _ => Except.error "header.startsWith is not a function"
    | JSVal.str h =>
      if strStartsWith h "Column" then Except.ok rowData
      else
        let cleanHeader := cleanHeaderName h
        let rowData1 := objSet rowData cleanHeader (jsOr cellValue (JSVal.str ""))
        if cleanHeader ∈ ["S.No", "Job Details", "Comments"] then Except.ok rowData1
        else
          let statusInfo := getStatusInfo cellValue
          Except.ok (objSet (objSet (objSet rowData1
            (cleanHeader ++ "_status") (JSVal.str statusInfo.status))
            (cleanHeader ++ "_color") (JSVal.str statusInfo.color))
            (cleanHeader ++ "_type") (JSVal.str statusInfo.type))

/-- The candidate row record built for data row `row`: the inner column
loop folded over the columns of the range, starting from an empty object.
(The source also tracks a `hasValidData` flag that it never reads; it is
omitted.) -/
def buildRowData (worksheet : Worksheet) (range : SheetRange) (headers : List JSVal)
    (row : Nat) : Except String Obj :=
  (List.range' range.sc (range.ec + 1 - range.sc)).foldlM
    (processRowCol worksheet headers range.sc row) []

/-- Metadata added to an admitted row: `id`, `rowNumber` and
`uploadDate`. -/
def finalizeRow (ts : String) (rowData : Obj) : Obj :=
  let sNo := objGet rowData "S.No"
  objSet (objSet (objSet rowData
    "id" (JSVal.str ("row-" ++ jsToStringO sNo)))
    "rowNumber" (JSVal.num ((jsToNumberO sNo).getD 0)))
    "uploadDate" (JSVal.str ts)

/-- The admission test of the source:
`sNo && jobDetails && !isNaN(Number(sNo)) && jobDetails.toString().trim() !== ''`,
returning the finalized row on success. -/
def admitRow (ts : String) (rowData : Obj) : Option Obj :=
  let sNo := objGet rowData "S.No"
  let jobDetails := objGet rowData "Job Details"
  if jsTruthyO sNo && jsTruthyO jobDetails && (jsToNumberO sNo).isSome
      && decide (jsTrim (jsToStringO jobDetails) ≠ "") then
    some (finalizeRow ts rowData)
  else none

/-- Body of the outer row loop: build the data row, and append it to
`jsonData` when the admission test accepts it. -/
def processOneRow (worksheet : Worksheet) (range : SheetRange) (headers : List JSVal)
    (ts : String) (jsonData : List Obj) (row : Nat) : Except String (List Obj) := do
  let rowData ← buildRowData worksheet range headers row
  match admitRow ts rowData with
  | some r => Except.ok (jsonData ++ [r])
  | none => Except.ok jsonData

/-- The outer row loop over the data rows of the range. -/
def processRows (worksheet : Worksheet) (range : SheetRange) (headers : List JSVal)
    (ts : String) : Except String (List Obj) :=
  (List.range' (range.sr + 1) (range.er - range.sr)).foldlM
    (processOneRow worksheet range headers ts) []

/-- Sort key of the final comparator `(a.rowNumber || 0) - (b.rowNumber || 0)`;
`rowNumber` is always a number on admitted rows, and a missing or zero
value contributes `0`. -/
def rowNumberOf (o : Obj) : ℚ :=
  match objGet o "rowNumber" with
  | some (JSVal.num q) => q
  | _ => 0

/-- Order induced by the final comparator. -/
def rowLe (a b : Obj) : Prop := rowNumberOf a ≤ rowNumberOf b

instance : DecidableRel rowLe :=
  fun a b => inferInstanceAs (Decidable (rowNumberOf a ≤ rowNumberOf b))

/-- The final `jsonData.sort(...)`: JavaScript array sort is stable, and
insertion sort realizes the same stable ordering. -/
def sortRows (jsonData : List Obj) : List Obj := List.insertionSort rowLe jsonData

/-- The whole normalization pipeline: headers, row extraction with
admission filtering, and the final sort. -/
def normalize (worksheet : Worksheet) (range : SheetRange) (ts : String) :
    Except String (List JSVal × List Obj) := do
  let headers := extractHeaders worksheet range
  let jsonData ← processRows worksheet range headers ts
  Except.ok (headers, sortRows jsonData)

end ApiUpload

namespace ServerJs

/-! Transcription of the normalization pipeline of the Express route
`app.post("/api/upload-excel")` in `server/server.js`.  The route's
normalization code is a line-for-line duplicate of the serverless
handler's (only logging differs), and the definitions below transcribe it
independently. -/

/-- Transcription of `convertExcelTime`: non-numbers are returned
unchanged; a number is read as a fraction of a day and rendered as
zero-padded `HH:MM`.  JavaScript computes `Math.floor(totalMinutes/60)`
and the `%` remainder; at every call site the serial lies in `[0, 1)`, so
`totalMinutes` is non-negative and `Int.fdiv` / `%` on `ℤ` agree with the
JavaScript operators. -/
def convertExcelTime (serial : JSVal) : JSVal :=
  match serial with
  | JSVal.str _ => serial
  | JSVal.num q =>
    let totalMinutes : ℤ := jsRound (ratMul (ratMul q 24) 60)
    let hours : ℤ := (Int.fdiv totalMinutes 60) % 24
    let minutes : ℤ := totalMinutes % 60
    JSVal.str (padStart2 (toString hours) ++ ":" ++ padStart2 (toString minutes))

/-- The `cell.v` branch of `getFormattedCellValue`: a numeric raw value in
`[0, 1)` is converted to a time string, any other raw value is returned
unchanged, and a missing raw value yields the empty string. -/
def cellRawValue (cell : Cell) : JSVal :=
  match cell.v with
  | some (JSVal.num q) =>
    if 0 ≤ q ∧ q < 1 then convertExcelTime (JSVal.num q) else JSVal.num q
  | some (JSVal.str s) => JSVal.str s
  | none => JSVal.str ""

/-- Transcription of `getFormattedCellValue`: an absent cell resolves to
the empty string; a truthy pre-formatted display string `w` is used
verbatim; otherwise the raw value is resolved per `cellRawValue`. -/
def getFormattedCellValue (worksheet : Worksheet) (r c : Nat) : JSVal :=
  match worksheet r c with
  | none => JSVal.str ""
  | some cell =>
    match cell.w with
    | some w => if w ≠ "" then JSVal.str w else cellRawValue cell
    | none => cellRawValue cell

/-- Transcription of `getStatusInfo`.  The source first tests
`!value || value === null || value === undefined || value === ''`, which
on the modelled values is exactly falsiness. -/
def getStatusInfo (value : JSVal) : StatusInfo :=
  if ! jsTruthy value then StatusInfo.mk "NA" "#d9d9d9" "default"
  else
    let strValue := jsTrim (strUpper (jsToString value))
    if strValue ∈ ["ACTIVE", "PASS", "ENABLED", "UNSUSPENDED"] then
      StatusInfo.mk strValue "#00B050" "success"
    else if strValue ∈ ["OFF", "FAILED", "INACTIVE", "SUSPENDED"] then
      StatusInfo.mk strValue "#FF0000" "error"
    else if strValue ∈ ["PENDING"] then
      StatusInfo.mk strValue "#FFC000" "warning"
    else if isTimeText strValue then
      if strValue = "00:00" then StatusInfo.mk strValue "#d9d9d9" "default"
      else StatusInfo.mk strValue "#0070C0" "processing"
    else if isDateText strValue then
      StatusInfo.mk strValue "#7030A0" "purple"
    else if strValue = "NA" then
      StatusInfo.mk "NA" "#d9d9d9" "default"
    else
      StatusInfo.mk strValue "#0070C0" "info"

/-- Header extraction loop: one entry per column of the range, the
resolved header cell or, when that value is falsy, the placeholder
`"Column"` followed by the 1-based column position. -/
def extractHeaders (worksheet : Worksheet) (range : SheetRange) : List JSVal :=
  (List.range' range.sc (range.ec + 1 - range.sc)).map (fun col =>
    jsOr (getFormattedCellValue worksheet range.sr col)
      (JSVal.str ("Column" ++ toString (col + 1))))

/-- The header-to-canonical-name mapping: the three `includes` rules of
the source, checked in order, defaulting to the header itself. -/
def cleanHeaderName (header : String) : String :=
  let lower := strLower header
  if strIncludes lower "s.no" || strIncludes lower "s no" || decide (lower = "s.no") then
    "S.No"
  else if strIncludes lower "job" && strIncludes lower "detail" then
    "Job Details"
  else if strIncludes lower "comment" then
    "Comments"
  else header

/-- One iteration of the inner column loop of the row-processing pass.
A falsy header is skipped; `header.startsWith` on a (truthy) numeric
header raises a TypeError, surfaced through `Except.error`; a header
starting with `"Column"` is skipped; otherwise the resolved cell value is
stored under the canonical name, with a status bundle added for
non-text columns. -/
def processRowCol (worksheet : Worksheet) (headers : List JSVal) (sc row : Nat)
    (rowData : Obj) (col : Nat) : Except String Obj :=
  let header := headers.getD (col - sc) (JSVal.str "")
  let cellValue := getFormattedCellValue worksheet row col
  if ! jsTruthy header then Except.ok rowData
  else
    match header with
    | JSVal.num _ => Except.error "header.startsWith is not a function"
    | JSVal.str h =>
      if strStartsWith h "Column" then Except.ok rowData
      else
        let cleanHeader := cleanHeaderName h
        let rowData1 := objSet rowData cleanHeader (jsOr cellValue (JSVal.str ""))
        if cleanHeader ∈ ["S.No", "Job Details", "Comments"] then Except.ok rowData1
        else
          let statusInfo := getStatusInfo cellValue
          Except.ok (objSet (objSet (objSet rowData1
            (cleanHeader ++ "_status") (JSVal.str statusInfo.status))
            (cleanHeader ++ "_color") (JSVal.str statusInfo.color))
            (cleanHeader ++ "_type") (JSVal.str statusInfo.type))

/-- The candidate row record built for data row `row`: the inner column
loop folded over the columns of the range, starting from an empty object.
(The source also tracks a `hasValidData` flag that it never reads; it is
omitted.) -/
def buildRowData (worksheet : Worksheet) (range : SheetRange) (headers : List JSVal)
    (row : Nat) : Except String Obj :=
  (List.range' range.sc (range.ec + 1 - range.sc)).foldlM
    (processRowCol worksheet headers range.sc row) []

/-- Metadata added to an admitted row: `id`, `rowNumber` and
`uploadDate`. -/
def finalizeRow (ts : String) (rowData : Obj) : Obj :=
  let sNo := objGet rowData "S.No"
  objSet (objSet (objSet rowData
    "id" (JSVal.str ("row-" ++ jsToStringO sNo)))
    "rowNumber" (JSVal.num ((jsToNumberO sNo).getD 0)))
    "uploadDate" (JSVal.str ts)

/-- The admission test of the source:
`sNo && jobDetails && !isNaN(Number(sNo)) && jobDetails.toString().trim() !== ''`,
returning the finalized row on success. -/
def admitRow (ts : String) (rowData : Obj) : Option Obj :=
  let sNo := objGet rowData "S.No"
  let jobDetails := objGet rowData "Job Details"
  if jsTruthyO sNo && jsTruthyO jobDetails && (jsToNumberO sNo).isSome
      && decide (jsTrim (jsToStringO jobDetails) ≠ "") then
    some (finalizeRow ts rowData)
  else none

/-- Body of the outer row loop: build the data row, and append it to
`jsonData` when the admission test accepts it. -/
def processOneRow (worksheet : Worksheet) (range : SheetRange) (headers : List JSVal)
    (ts : String) (jsonData : List Obj) (row : Nat) : Except String (List Obj) := do
  let rowData ← buildRowData worksheet range headers row
  match admitRow ts rowData with
  | some r => Except.ok (jsonData ++ [r])
  | none => Except.ok jsonData

/-- The outer row loop over the data rows of the range. -/
def processRows (worksheet : Worksheet) (range : SheetRange) (headers : List JSVal)
    (ts : String) : Except String (List Obj) :=
  (List.range' (range.sr + 1) (range.er - range.sr)).foldlM
    (processOneRow worksheet range headers ts) []

/-- Sort key of the final comparator `(a.rowNumber || 0) - (b.rowNumber || 0)`;
`rowNumber` is always a number on admitted rows, and a missing or zero
value contributes `0`. -/
def rowNumberOf (o : Obj) : ℚ :=
  match objGet o "rowNumber" with
  | some (JSVal.num q) => q
  | _ => 0

/-- Order induced by the final comparator. -/
def rowLe (a b : Obj) : Prop := rowNumberOf a ≤ rowNumberOf b

instance : DecidableRel rowLe :=
  fun a b => inferInstanceAs (Decidable (rowNumberOf a ≤ rowNumberOf b))

/-- The final `jsonData.sort(...)`: JavaScript array sort is stable, and
insertion sort realizes the same stable ordering. -/
def sortRows (jsonData : List Obj) : List Obj := List.insertionSort rowLe jsonData

/-- The whole normalization pipeline: headers, row extraction with
admission filtering, and the final sort. -/
def normalize (worksheet : Worksheet) (range : SheetRange) (ts : String) :
    Except String (List JSVal × List Obj) := do
  let headers := extractHeaders worksheet range
  let jsonData ← processRows worksheet range headers ts
  Except.ok (headers, sortRows jsonData)

end ServerJs

/-! Supporting lemmas about the JavaScript object model. -/

theorem objGet_objSet (o : Obj) (k k' : String) (v : JSVal) :
    objGet (objSet o k v) k' = if k = k' then some v else objGet o k' := by
  induction o with
  | nil => simp [objSet, objGet]
  | cons a rest ih =>
    obtain ⟨ak, av⟩ := a
    by_cases hak : ak = k
    · subst hak
      by_cases hk : ak = k'
      · subst hk; simp [objSet, objGet]
      · simp [objSet, objGet, hk]
    · by_cases hk : ak = k'
      · subst hk
        have : k ≠ ak := fun h => hak h.symm
        simp [objSet, objGet, hak, this]
      · simp [objSet, objGet, hak, hk, ih]

theorem objGet_objSet_self (o : Obj) (k : String) (v : JSVal) :
    objGet (objSet o k v) k = some v := by
  simp [objGet_objSet]

theorem objGet_objSet_ne (o : Obj) (k k' : String) (v : JSVal) (h : k ≠ k') :
    objGet (objSet o k v) k' = objGet o k' := by
  simp [objGet_objSet, h]

/-- A truthy-or-defaulted value `a || ""` is never the number `0`. -/
theorem jsOr_empty_ne_num_zero (v : JSVal) (q : ℚ)
    (h : jsOr v (JSVal.str "") = JSVal.num q) : q ≠ 0 := by
  unfold jsOr at h
  by_cases ht : jsTruthy v = true
  · rw [if_pos ht] at h
    subst h
    simpa [jsTruthy] using ht
  · rw [if_neg ht] at h
    exact absurd h (by simp)

/-- Row objects in which no stored value is the number zero; every
candidate row record built by the pipeline satisfies this, because cell
values are stored as `cellValue || ""` and status-bundle entries are
strings. -/
def noZeroNum (o : Obj) : Prop :=
  ∀ k q, objGet o k = some (JSVal.num q) → q ≠ 0

theorem noZeroNum_nil : noZeroNum [] := by
  intro k q h
  simp [objGet] at h

theorem noZeroNum_objSet {o : Obj} (ho : noZeroNum o) {v : JSVal}
    (hv : ∀ q, v = JSVal.num q → q ≠ 0) (k : String) :
    noZeroNum (objSet o k v) := by
  intro k' q h
  rw [objGet_objSet] at h
  by_cases hk : k = k'
  · rw [if_pos hk] at h
    exact hv q (Option.some.injEq .. ▸ h)
  · rw [if_neg hk] at h
    exact ho k' q h

theorem noZeroNum_objSet_str {o : Obj} (ho : noZeroNum o) (k : String) (s : String) :
    noZeroNum (objSet o k (JSVal.str s)) :=
  noZeroNum_objSet ho (fun q h => absurd h (by simp)) k

/-! Supporting lemmas about the transcribed pipeline (stated for the
`ServerJs` transcription; the `ApiUpload` one is definitionally equal). -/

/-- The raw-value branch of the formatting rule never resolves to the
number zero: a raw zero lies in `[0, 1)` and is rendered as a time
string. -/
theorem ServerJs.cellRawValue_num_ne_zero (cell : Cell) (q : ℚ)
    (h : ServerJs.cellRawValue cell = JSVal.num q) : q ≠ 0 := by
  unfold ServerJs.cellRawValue at h
  split at h
  · rename_i q' heq
    split at h
    · unfold ServerJs.convertExcelTime at h
      simp at h
    · rename_i hq
      intro h0
      apply hq
      have hq' : q' = q := by simpa using h
      rw [hq', h0]
      exact ⟨le_refl 0, by norm_num⟩
  · simp at h
  · simp at h

/-- The cell formatting rule never resolves to the number zero. -/
theorem ServerJs.getFormattedCellValue_num_ne_zero (worksheet : Worksheet)
    (r c : Nat) (q : ℚ)
    (h : ServerJs.getFormattedCellValue worksheet r c = JSVal.num q) : q ≠ 0 := by
  unfold ServerJs.getFormattedCellValue at h
  split at h
  · simp at h
  · rename_i cell heq
    split at h
    · split at h
      · simp at h
      · exact ServerJs.cellRawValue_num_ne_zero cell q h
    · exact ServerJs.cellRawValue_num_ne_zero cell q h

/-- One column step preserves the no-zero-number invariant. -/
theorem ServerJs.processRowCol_noZeroNum (worksheet : Worksheet)
    (headers : List JSVal) (sc row : Nat) (rowData rd : Obj) (col : Nat)
    (h : ServerJs.processRowCol worksheet headers sc row rowData col = Except.ok rd)
    (h0 : noZeroNum rowData) : noZeroNum rd := by
  unfold ServerJs.processRowCol at h
  simp only at h
  split at h
  · exact (Except.ok.inj h) ▸ h0
  · split at h
    · simp at h
    · split at h
      · exact (Except.ok.inj h) ▸ h0
      · rename_i x hd heq hcol
        have hstore : noZeroNum (objSet rowData (ServerJs.cleanHeaderName hd)
            (jsOr (ServerJs.getFormattedCellValue worksheet row col) (JSVal.str ""))) :=
          noZeroNum_objSet h0 (fun q hq => jsOr_empty_ne_num_zero _ q hq) _
        split at h
        · exact (Except.ok.inj h) ▸ hstore
        · exact (Except.ok.inj h) ▸ (noZeroNum_objSet_str
            (noZeroNum_objSet_str (noZeroNum_objSet_str hstore _ _) _ _) _ _)

/-- The column fold preserves the no-zero-number invariant. -/
theorem ServerJs.foldl_processRowCol_noZeroNum (worksheet : Worksheet)
    (headers : List JSVal) (sc row : Nat) :
    ∀ (cols : List Nat) (acc rd : Obj),
      cols.foldlM (ServerJs.processRowCol worksheet headers sc row) acc = Except.ok rd →
      noZeroNum acc → noZeroNum rd := by
  intro cols
  induction cols with
  | nil =>
    intro acc rd h h0
    exact (Except.ok.inj h) ▸ h0
  | cons x xs ih =>
    intro acc rd h h0
    rw [List.foldlM_cons] at h
    cases hstep : ServerJs.processRowCol worksheet headers sc row acc x with
    | error e =>
      rw [hstep] at h
      exact Except.noConfusion h
    | ok acc' =>
      rw [hstep] at h
      exact ih acc' rd h
        (ServerJs.processRowCol_noZeroNum worksheet headers sc row acc acc' x hstep h0)

/-- Every candidate row record built by the pipeline satisfies the
no-zero-number invariant. -/
theorem ServerJs.buildRowData_noZeroNum (worksheet : Worksheet) (range : SheetRange)
    (headers : List JSVal) (row : Nat) (rd : Obj)
    (h : ServerJs.buildRowData worksheet range headers row = Except.ok rd) :
    noZeroNum rd := by
  unfold ServerJs.buildRowData at h
  exact ServerJs.foldl_processRowCol_noZeroNum worksheet headers range.sc row _ [] rd h
    noZeroNum_nil

/-- Step equation: a failing row build propagates the error. -/
theorem ServerJs.processOneRow_error (worksheet : Worksheet) (range : SheetRange)
    (headers : List JSVal) (ts : String) (jsonData : List Obj) (row : Nat) (e : String)
    (hb : ServerJs.buildRowData worksheet range headers row = Except.error e) :
    ServerJs.processOneRow worksheet range headers ts jsonData row = Except.error e := by
  unfold ServerJs.processOneRow
  rw [hb]
  rfl

/-- Step equation: an accepted row is appended to the accumulator. -/
theorem ServerJs.processOneRow_some (worksheet : Worksheet) (range : SheetRange)
    (headers : List JSVal) (ts : String) (jsonData : List Obj) (row : Nat) (rd r0 : Obj)
    (hb : ServerJs.buildRowData worksheet range headers row = Except.ok rd)
    (ha : ServerJs.admitRow ts rd = some r0) :
    ServerJs.processOneRow worksheet range headers ts jsonData row =
      Except.ok (jsonData ++ [r0]) := by
  unfold ServerJs.processOneRow
  rw [hb]
  show (match ServerJs.admitRow ts rd with
    | some r => Except.ok (jsonData ++ [r])
    | none => Except.ok jsonData) = Except.ok (jsonData ++ [r0])
  rw [ha]

/-- Step equation: a rejected row leaves the accumulator unchanged. -/
theorem ServerJs.processOneRow_none (worksheet : Worksheet) (range : SheetRange)
    (headers : List JSVal) (ts : String) (jsonData : List Obj) (row : Nat) (rd : Obj)
    (hb : ServerJs.buildRowData worksheet range headers row = Except.ok rd)
    (ha : ServerJs.admitRow ts rd = none) :
    ServerJs.processOneRow worksheet range headers ts jsonData row = Except.ok jsonData := by
  unfold ServerJs.processOneRow
  rw [hb]
  show (match ServerJs.admitRow ts rd with
    | some r => Except.ok (jsonData ++ [r])
    | none => Except.ok jsonData) = Except.ok jsonData
  rw [ha]

/-- Characterization of the row loop: when the fold succeeds, a record is
in its output iff it was already accumulated or is the accepted form of
some processed data row. -/
theorem ServerJs.foldl_processOneRow_mem (worksheet : Worksheet) (range : SheetRange)
    (headers : List JSVal) (ts : String) :
    ∀ (l : List Nat) (acc out : List Obj),
      l.foldlM (ServerJs.processOneRow worksheet range headers ts) acc = Except.ok out →
      ∀ r : Obj, r ∈ out ↔ r ∈ acc ∨ ∃ row ∈ l, ∃ rd,
        ServerJs.buildRowData worksheet range headers row = Except.ok rd ∧
        ServerJs.admitRow ts rd = some r := by
  intro l
  induction l with
  | nil =>
    intro acc out h r
    rw [← Except.ok.inj h]
    simp
  | cons x xs ih =>
    intro acc out h r
    rw [List.foldlM_cons] at h
    cases hb : ServerJs.buildRowData worksheet range headers x with
    | error e =>
      rw [ServerJs.processOneRow_error worksheet range headers ts acc x e hb] at h
      exact Except.noConfusion h
    | ok rd =>
      cases ha : ServerJs.admitRow ts rd with
      | some r0 =>
        rw [ServerJs.processOneRow_some worksheet range headers ts acc x rd r0 hb ha] at h
        rw [ih (acc ++ [r0]) out h r]
        simp only [List.mem_append, List.mem_singleton, List.mem_cons]
        constructor
        · rintro ((hacc | rfl | h0) | ⟨row, hrow, rd', hbuild, hacc'⟩)
          · exact Or.inl hacc
          · exact Or.inr ⟨x, Or.inl rfl, rd, hb, ha⟩
          · exact absurd h0 (List.not_mem_nil r)
          · exact Or.inr ⟨row, Or.inr hrow, rd', hbuild, hacc'⟩
        · rintro (hacc | ⟨row, hrow, rd', hbuild, hacc'⟩)
          · exact Or.inl (Or.inl hacc)
          · rcases hrow with rfl | hrow'
            · rw [hb] at hbuild
              rw [← Except.ok.inj hbuild] at hacc'
              rw [ha] at hacc'
              exact Or.inl (Or.inr (Or.inl (Option.some.inj hacc').symm))
            · exact Or.inr ⟨row, hrow', rd', hbuild, hacc'⟩
      | none =>
        rw [ServerJs.processOneRow_none worksheet range headers ts acc x rd hb ha] at h
        rw [ih acc out h r]
        simp only [List.mem_cons]
        constructor
        · rintro (hacc | ⟨row, hrow, rd', hbuild, hacc'⟩)
          · exact Or.inl hacc
          · exact Or.inr ⟨row, Or.inr hrow, rd', hbuild, hacc'⟩
        · rintro (hacc | ⟨row, hrow, rd', hbuild, hacc'⟩)
          · exact Or.inl hacc
          · rcases hrow with rfl | hrow'
            · rw [hb] at hbuild
              rw [← Except.ok.inj hbuild] at hacc'
              rw [ha] at hacc'
              exact Option.noConfusion hacc'
            · exact Or.inr ⟨row, hrow', rd', hbuild, hacc'⟩

/-- Membership characterization for `processRows`. -/
theorem ServerJs.processRows_mem (worksheet : Worksheet) (range : SheetRange)
    (headers : List JSVal) (ts : String) (out : List Obj)
    (h : ServerJs.processRows worksheet range headers ts = Except.ok out) (r : Obj) :
    r ∈ out ↔ ∃ row ∈ List.range' (range.sr + 1) (range.er - range.sr), ∃ rd,
      ServerJs.buildRowData worksheet range headers row = Except.ok rd ∧
      ServerJs.admitRow ts rd = some r := by
  unfold ServerJs.processRows at h
  rw [ServerJs.foldl_processOneRow_mem worksheet range headers ts _ [] out h r]
  simp

/-! The admission predicate, as the specification words it. -/

/-- Transliteration of the specified admission predicate: the
`SerialNumber` field (stored by the code under the key `"S.No"`) is
present, non-empty and parses as a number (`Number(...)` is not NaN), and
the `JobDetails` field (key `"Job Details"`) is present and non-blank
after trimming. -/
def specAdmission (rd : Obj) : Prop :=
  ∃ s, objGet rd "S.No" = some s ∧ s ≠ JSVal.str "" ∧ (jsToNumber s).isSome = true ∧
    ∃ j, objGet rd "Job Details" = some j ∧ jsTrim (jsToString j) ≠ ""

theorem ne_str_empty_of_jsTruthy (s : JSVal) (h : jsTruthy s = true) :
    s ≠ JSVal.str "" := by
  cases s with
  | str t =>
    simp only [jsTruthy, decide_eq_true_eq] at h
    simpa using h
  | num q => simp

theorem jsTruthy_of_ne_str_empty (s : JSVal) (hnum : ∀ q, s = JSVal.num q → q ≠ 0)
    (h : s ≠ JSVal.str "") : jsTruthy s = true := by
  cases s with
  | str t =>
    simp only [jsTruthy, decide_eq_true_eq]
    intro ht
    exact h (by rw [ht])
  | num q =>
    simp only [jsTruthy, decide_eq_true_eq]
    exact hnum q rfl

theorem jsTruthy_of_trim_ne (j : JSVal) (hnum : ∀ q, j = JSVal.num q → q ≠ 0)
    (h : jsTrim (jsToString j) ≠ "") : jsTruthy j = true := by
  cases j with
  | str t =>
    simp only [jsTruthy, decide_eq_true_eq]
    intro ht
    apply h
    rw [ht]
    rfl
  | num q =>
    simp only [jsTruthy, decide_eq_true_eq]
    exact hnum q rfl

/-- On candidate rows satisfying the no-zero-number invariant, the code's
admission test accepts exactly the rows satisfying the specified
admission predicate, and produces the finalized record. -/
theorem ServerJs.admitRow_iff (ts : String) (rd : Obj) (h0 : noZeroNum rd) (r : Obj) :
    ServerJs.admitRow ts rd = some r ↔
      specAdmission rd ∧ r = ServerJs.finalizeRow ts rd := by
  unfold ServerJs.admitRow
  cases hs : objGet rd "S.No" with
  | none => simp [jsTruthyO, specAdmission, hs]
  | some s =>
    cases hj : objGet rd "Job Details" with
    | none => simp [jsTruthyO, specAdmission, hs, hj]
    | some j =>
      simp only [jsTruthyO, jsToNumberO, jsToStringO]
      have hnumS : ∀ q, s = JSVal.num q → q ≠ 0 := fun q hq => h0 _ q (hq ▸ hs)
      have hnumJ : ∀ q, j = JSVal.num q → q ≠ 0 := fun q hq => h0 _ q (hq ▸ hj)
      by_cases hc : (jsTruthy s && jsTruthy j && (jsToNumber s).isSome
          && decide (jsTrim (jsToString j) ≠ "")) = true
      · rw [if_pos hc]
        simp only [Bool.and_eq_true, decide_eq_true_eq] at hc
        obtain ⟨⟨⟨h1, h2⟩, h3⟩, h4⟩ := hc
        constructor
        · intro h
          exact ⟨⟨s, hs, ne_str_empty_of_jsTruthy s h1, h3, j, hj, h4⟩,
            (Option.some.inj h).symm⟩
        · rintro ⟨_, rfl⟩
          rfl
      · rw [if_neg hc]
        constructor
        · intro h
          exact absurd h (by simp)
        · rintro ⟨⟨s', hs', hne, hsome, j', hj', htrim⟩, rfl⟩
          exfalso
          apply hc
          have hss : s = s' := Option.some.inj (hs.symm.trans hs')
          have hjj : j = j' := Option.some.inj (hj.symm.trans hj')
          subst hss
          subst hjj
          simp only [Bool.and_eq_true, decide_eq_true_eq]
          exact ⟨⟨⟨jsTruthy_of_ne_str_empty s hnumS hne,
            jsTruthy_of_trim_ne j hnumJ htrim⟩, hsome⟩, htrim⟩

/-! Specification-side definitions, transliterated from the
specification's wording, to be compared with the transcriptions above. -/

/-- The specified status classification cascade: an ordered list of
predicate-result rules applied to the normalized value, first match wins
(the final info fallback is the base case of `firstMatchStatus`). -/
def specStatusRules : List ((String → Bool) × (String → StatusInfo)) := [
  (fun s => decide (s ∈ ["ACTIVE", "PASS", "ENABLED", "UNSUSPENDED"]),
    fun s => StatusInfo.mk s "#00B050" "success"),
  (fun s => decide (s ∈ ["OFF", "FAILED", "INACTIVE", "SUSPENDED"]),
    fun s => StatusInfo.mk s "#FF0000" "error"),
  (fun s => decide (s ∈ ["PENDING"]), fun s => StatusInfo.mk s "#FFC000" "warning"),
  (fun s => isTimeText s,
    fun s => if s = "00:00" then StatusInfo.mk s "#d9d9d9" "default"
      else StatusInfo.mk s "#0070C0" "processing"),
  (fun s => isDateText s, fun s => StatusInfo.mk s "#7030A0" "purple"),
  (fun s => decide (s = "NA"), fun _ => StatusInfo.mk "NA" "#d9d9d9" "default")]

/-- First-match-wins evaluation of an ordered rule list, falling back to
the info bundle. -/
def firstMatchStatus : List ((String → Bool) × (String → StatusInfo)) → String → StatusInfo
  | [], s => StatusInfo.mk s "#0070C0" "info"
  | (p, f) :: rest, s => if p s then f s else firstMatchStatus rest s

/-- The specified classification: empty input is the NA/default bundle,
otherwise the cascade applied to the uppercased and trimmed input. -/
def getStatusInfoSpec (value : JSVal) : StatusInfo :=
  if ! jsTruthy value then StatusInfo.mk "NA" "#d9d9d9" "default"
  else firstMatchStatus specStatusRules (jsTrim (strUpper (jsToString value)))

theorem getStatusInfo_eq_spec (v : JSVal) :
    ServerJs.getStatusInfo v = getStatusInfoSpec v := by
  unfold ServerJs.getStatusInfo getStatusInfoSpec
  by_cases hv : jsTruthy v = true
  · simp only [hv, Bool.not_true, Bool.false_eq_true, if_false,
      firstMatchStatus, specStatusRules]
    split_ifs <;> simp_all
  · simp [eq_false_of_ne_true hv]

/-- C2: the status classification applies the specified rules in the
fixed order (empty input to NA/default; success, error, warning keyword
sets; anchored time pattern with the 00:00 special case; date pattern to
purple; literal NA to default; info fallback), first match wins, after
normalizing the input by uppercasing and trimming; in particular any
casing/whitespace variant of "active" classifies as the green success
bundle with status "ACTIVE", and "05-Jan" classifies as the purple date
bundle. -/
theorem claim_C2_status_cascade :
    (∀ v, ServerJs.getStatusInfo v = getStatusInfoSpec v) ∧
    (∀ s, jsTrim (strUpper s) = "ACTIVE" →
      ServerJs.getStatusInfo (JSVal.str s) = StatusInfo.mk "ACTIVE" "#00B050" "success") ∧
    ServerJs.getStatusInfo (JSVal.str "05-Jan") = StatusInfo.mk "05-JAN" "#7030A0" "purple" := by
  refine ⟨getStatusInfo_eq_spec, ?_, by decide⟩
  intro s h
  have hs : s ≠ "" := by
    intro he
    rw [he] at h
    exact absurd h (by decide)
  have ht : jsTruthy (JSVal.str s) = true := by simp [jsTruthy, hs]
  unfold ServerJs.getStatusInfo
  rw [ht]
  simp only [Bool.not_true, Bool.false_eq_true, if_false, jsToString]
  rw [h]
  decide

/-- Witness for C2 at the concrete inputs " active " and "AcTiVe". -/
theorem claim_C2_status_cascade_witness :
    ServerJs.getStatusInfo (JSVal.str " active ") = StatusInfo.mk "ACTIVE" "#00B050" "success" ∧
    ServerJs.getStatusInfo (JSVal.str "AcTiVe") = StatusInfo.mk "ACTIVE" "#00B050" "success" :=
  ⟨claim_C2_status_cascade.2.1 " active " (by decide),
   claim_C2_status_cascade.2.1 "AcTiVe" (by decide)⟩

/-- Time string prescribed by the specification for a fraction-of-day
serial `v`: `totalMinutes = round(v * 1440)`,
`hours = floor(totalMinutes / 60) mod 24`, `minutes = totalMinutes mod 60`,
rendered as zero-padded `HH:MM`. -/
def specTimeString (q : ℚ) : String :=
  let totalMinutes : ℤ := jsRound (ratMul q 1440)
  padStart2 (toString (Int.fdiv totalMinutes 60 % 24)) ++ ":"
    ++ padStart2 (toString (totalMinutes % 60))

theorem convertExcelTime_eq_spec (q : ℚ) :
    ServerJs.convertExcelTime (JSVal.num q) = JSVal.str (specTimeString q) := by
  have h : ratMul (ratMul q 24) 60 = ratMul q 1440 := by
    rw [ratMul_eq, ratMul_eq, ratMul_eq]
    ring
  simp only [ServerJs.convertExcelTime, specTimeString]
  rw [h]

/-- C3: a cell with no pre-formatted display string whose raw value is a
number `v` with `0 ≤ v < 1` resolves to the zero-padded `HH:MM` string
with `totalMinutes = round(v * 1440)`, `hours = floor(totalMinutes/60) mod 24`
and `minutes = totalMinutes mod 60`; raw value `0.5` resolves to `"12:00"`
and `0.0` to `"00:00"`; an absent cell resolves to the empty string; a
string raw value or a number outside `[0, 1)` passes through unchanged. -/
theorem claim_C3_time_serial_formatting :
    (∀ (ws : Worksheet) (r c : Nat) (cell : Cell) (q : ℚ), ws r c = some cell →
      cell.w = none → cell.v = some (JSVal.num q) → 0 ≤ q → q < 1 →
      ServerJs.getFormattedCellValue ws r c = JSVal.str (specTimeString q)) ∧
    (∀ (ws : Worksheet) (r c : Nat), ws r c = none →
      ServerJs.getFormattedCellValue ws r c = JSVal.str "") ∧
    (∀ (ws : Worksheet) (r c : Nat) (cell : Cell) (s : String), ws r c = some cell →
      cell.w = none → cell.v = some (JSVal.str s) →
      ServerJs.getFormattedCellValue ws r c = JSVal.str s) ∧
    (∀ (ws : Worksheet) (r c : Nat) (cell : Cell) (q : ℚ), ws r c = some cell →
      cell.w = none → cell.v = some (JSVal.num q) → ¬(0 ≤ q ∧ q < 1) →
      ServerJs.getFormattedCellValue ws r c = JSVal.num q) ∧
    ServerJs.getFormattedCellValue
      (wsOfList [(0, 0, Cell.mk none (some (JSVal.num (mkRat 1 2))))]) 0 0 =
      JSVal.str "12:00" ∧
    ServerJs.getFormattedCellValue
      (wsOfList [(0, 0, Cell.mk none (some (JSVal.num 0)))]) 0 0 =
      JSVal.str "00:00" := by
  refine ⟨?_, ?_, ?_, ?_, by decide, by decide⟩
  · intro ws r c cell q hw hwf hv h0 h1
    simp only [ServerJs.getFormattedCellValue, hw, hwf, ServerJs.cellRawValue, hv]
    rw [if_pos ⟨h0, h1⟩]
    exact convertExcelTime_eq_spec q
  · intro ws r c hw
    simp only [ServerJs.getFormattedCellValue, hw]
  · intro ws r c cell s hw hwf hv
    simp only [ServerJs.getFormattedCellValue, hw, hwf, ServerJs.cellRawValue, hv]
  · intro ws r c cell q hw hwf hv hq
    simp only [ServerJs.getFormattedCellValue, hw, hwf, ServerJs.cellRawValue, hv]
    rw [if_neg hq]

/-- Witness for C3 at a concrete worksheet holding the serial 3/4
(18:00), an absent cell, a string cell and an out-of-range number. -/
theorem claim_C3_time_serial_formatting_witness :
    ServerJs.getFormattedCellValue
      (wsOfList [(0, 0, Cell.mk none (some (JSVal.num (mkRat 3 4))))]) 0 0 =
      JSVal.str (specTimeString (mkRat 3 4)) ∧
    ServerJs.getFormattedCellValue
      (wsOfList [(0, 0, Cell.mk none (some (JSVal.num (mkRat 3 4))))]) 0 1 =
      JSVal.str "" ∧
    ServerJs.getFormattedCellValue
      (wsOfList [(0, 0, Cell.mk none (some (JSVal.str "hello")))]) 0 0 =
      JSVal.str "hello" ∧
    ServerJs.getFormattedCellValue
      (wsOfList [(0, 0, Cell.mk none (some (JSVal.num 5)))]) 0 0 =
      JSVal.num 5 :=
  ⟨claim_C3_time_serial_formatting.1 _ 0 0 (Cell.mk none (some (JSVal.num (mkRat 3 4))))
      (mkRat 3 4) (by decide) rfl rfl (by decide) (by decide),
   claim_C3_time_serial_formatting.2.1 _ 0 1 (by decide),
   claim_C3_time_serial_formatting.2.2.1 _ 0 0 (Cell.mk none (some (JSVal.str "hello")))
      "hello" (by decide) rfl rfl,
   claim_C3_time_serial_formatting.2.2.2.1 _ 0 0 (Cell.mk none (some (JSVal.num 5)))
      5 (by decide) rfl rfl (by decide)⟩

/-- Header label prescribed by the specification for a column: the cell
formatting rule applied to the header-row cell, except that an empty
resolved value is replaced by the synthetic placeholder `"Column{N}"`
where `N` is the 1-based column position. -/
def specHeaderLabel (worksheet : Worksheet) (range : SheetRange) (col : Nat) : JSVal :=
  let v := ServerJs.getFormattedCellValue worksheet range.sr col
  if v = JSVal.str "" then JSVal.str ("Column" ++ toString (col + 1)) else v

/-- C6: header extraction yields exactly one label per column of the
range, in column order: the resolved header-row cell, or the synthetic
`"Column{N}"` placeholder when that resolved value is empty or the cell
is absent. -/
theorem claim_C6_header_extraction (worksheet : Worksheet) (range : SheetRange) :
    ServerJs.extractHeaders worksheet range =
      (List.range' range.sc (range.ec + 1 - range.sc)).map
        (specHeaderLabel worksheet range) ∧
    (ServerJs.extractHeaders worksheet range).length = range.ec + 1 - range.sc := by
  have hmap : ServerJs.extractHeaders worksheet range =
      (List.range' range.sc (range.ec + 1 - range.sc)).map
        (specHeaderLabel worksheet range) := by
    unfold ServerJs.extractHeaders
    apply List.map_congr_left
    intro col _
    unfold specHeaderLabel
    cases hv : ServerJs.getFormattedCellValue worksheet range.sr col with
    | str s =>
      by_cases hs : s = "" <;> simp [jsOr, jsTruthy, hs]
    | num q =>
      have hq := ServerJs.getFormattedCellValue_num_ne_zero worksheet range.sr col q hv
      simp [jsOr, jsTruthy, hq]
  exact ⟨hmap, by rw [hmap]; simp⟩

theorem append_suffix_ne (a b c : String) (hlen : b.length ≠ c.length) :
    a ++ b ≠ a ++ c := by
  intro he
  have h2 := congrArg String.length he
  rw [String.length_append, String.length_append] at h2
  omega

theorem ne_append_suffix (a s : String) (hs : s.length ≠ 0) : a ≠ a ++ s := by
  intro he
  have h2 := congrArg String.length he
  rw [String.length_append] at h2
  omega

/-- The specified canonical-field-name rules: ordered case-insensitive
substring checks, first match wins (the base case of `firstMatchName`
returns the label itself).  The canonical names the specification calls
`SerialNumber`, `JobDetails` and `Comments` are stored by the code under
the keys `"S.No"`, `"Job Details"` and `"Comments"`. -/
def specNameRules : List ((String → Bool) × String) := [
  (fun l => strIncludes l "s.no" || strIncludes l "s no" || decide (l = "s.no"), "S.No"),
  (fun l => strIncludes l "job" && strIncludes l "detail", "Job Details"),
  (fun l => strIncludes l "comment", "Comments")]

/-- First-match-wins evaluation of the name rules on the lowercased
label, defaulting to the label itself. -/
def firstMatchName : List ((String → Bool) × String) → String → String
  | [], header => header
  | (p, n) :: rest, header =>
    if p (strLower header) then n else firstMatchName rest header

theorem cleanHeaderName_eq_spec (h : String) :
    ServerJs.cleanHeaderName h = firstMatchName specNameRules h := by
  unfold ServerJs.cleanHeaderName firstMatchName specNameRules
  rfl

/-- C7: header labels map to canonical field names by the specified
ordered case-insensitive substring rules, first match wins ("s.no"/"s no"
to the serial-number field, "job" plus "detail" to the job-details field,
"comment" to the comments field, anything else to itself); the header
"Job   Detail" maps to the job-details field in any casing or spacing;
and a contributing column stores its field bare exactly when the
canonical name is one of the three text fields, every other field also
receiving the status, color and kind sub-keys of its status bundle. -/
theorem claim_C7_canonical_field_names :
    (∀ h, ServerJs.cleanHeaderName h = firstMatchName specNameRules h) ∧
    ServerJs.cleanHeaderName "Job   Detail" = "Job Details" ∧
    ServerJs.cleanHeaderName "JOB DETAIL" = "Job Details" ∧
    ServerJs.cleanHeaderName "job detail" = "Job Details" ∧
    (∀ (ws : Worksheet) (headers : List JSVal) (sc row : Nat) (rd : Obj) (col : Nat)
      (h : String),
      headers.getD (col - sc) (JSVal.str "") = JSVal.str h → h ≠ "" →
      strStartsWith h "Column" = false →
      ∃ rd', ServerJs.processRowCol ws headers sc row rd col = Except.ok rd' ∧
        objGet rd' (ServerJs.cleanHeaderName h) =
          some (jsOr (ServerJs.getFormattedCellValue ws row col) (JSVal.str "")) ∧
        ((ServerJs.cleanHeaderName h ∈ ["S.No", "Job Details", "Comments"] ∧
          rd' = objSet rd (ServerJs.cleanHeaderName h)
            (jsOr (ServerJs.getFormattedCellValue ws row col) (JSVal.str ""))) ∨
         (ServerJs.cleanHeaderName h ∉ ["S.No", "Job Details", "Comments"] ∧
          objGet rd' (ServerJs.cleanHeaderName h ++ "_status") =
            some (JSVal.str (ServerJs.getStatusInfo
              (ServerJs.getFormattedCellValue ws row col)).status) ∧
          objGet rd' (ServerJs.cleanHeaderName h ++ "_color") =
            some (JSVal.str (ServerJs.getStatusInfo
              (ServerJs.getFormattedCellValue ws row col)).color) ∧
          objGet rd' (ServerJs.cleanHeaderName h ++ "_type") =
            some (JSVal.str (ServerJs.getStatusInfo
              (ServerJs.getFormattedCellValue ws row col)).type)))) := by
  refine ⟨cleanHeaderName_eq_spec, by decide, by decide, by decide, ?_⟩
  intro ws headers sc row rd col h hh hne hcol
  have ht : jsTruthy (JSVal.str h) = true := by simp [jsTruthy, hne]
  simp only [ServerJs.processRowCol, hh, ht, Bool.not_true, Bool.false_eq_true,
    if_false, hcol]
  by_cases hmem : ServerJs.cleanHeaderName h ∈ ["S.No", "Job Details", "Comments"]
  · rw [if_pos hmem]
    exact ⟨_, rfl, objGet_objSet_self _ _ _, Or.inl ⟨hmem, rfl⟩⟩
  · rw [if_neg hmem]
    refine ⟨_, rfl, ?_, Or.inr ⟨hmem, ?_, ?_, ?_⟩⟩
    · rw [objGet_objSet_ne _ _ _ _ ((ne_append_suffix _ "_type" (by decide)).symm),
        objGet_objSet_ne _ _ _ _ ((ne_append_suffix _ "_color" (by decide)).symm),
        objGet_objSet_ne _ _ _ _ ((ne_append_suffix _ "_status" (by decide)).symm),
        objGet_objSet_self]
    · rw [objGet_objSet_ne _ _ _ _ (append_suffix_ne _ "_type" "_status" (by decide)),
        objGet_objSet_ne _ _ _ _ (append_suffix_ne _ "_color" "_status" (by decide)),
        objGet_objSet_self]
    · rw [objGet_objSet_ne _ _ _ _ (append_suffix_ne _ "_type" "_color" (by decide)),
        objGet_objSet_self]
    · rw [objGet_objSet_self]

/-- Witness for C7: the non-text header "Temperature" contributes its
field to a concrete row. -/
theorem claim_C7_canonical_field_names_witness :
    ∃ rd', ServerJs.processRowCol (wsOfList [(1, 0, Cell.mk (some "Active") none)])
        [JSVal.str "Temperature"] 0 1 [] 0 = Except.ok rd' ∧
      objGet rd' "Temperature" = some (JSVal.str "Active") := by
  obtain ⟨rd', heq, hfield, -⟩ :=
    claim_C7_canonical_field_names.2.2.2.2
      (wsOfList [(1, 0, Cell.mk (some "Active") none)])
      [JSVal.str "Temperature"] 0 1 [] 0 "Temperature" rfl (by decide) (by decide)
  exact ⟨rd', heq, hfield⟩

theorem startsWithList_append (p l : List Char) : startsWithList p (p ++ l) = true := by
  induction p with
  | nil => rfl
  | cons c cs ih => simp [startsWithList, ih]

/-- Grid for the C4 counterexample: a genuine, non-synthesized header
label "ColumnX" in the third column. -/
def c4ws : Worksheet := wsOfList [
  (0, 0, Cell.mk (some "S.No") none), (0, 1, Cell.mk (some "Job Details") none),
  (0, 2, Cell.mk (some "ColumnX") none),
  (1, 0, Cell.mk (some "1") none), (1, 1, Cell.mk (some "Fix pump") none),
  (1, 2, Cell.mk (some "hello") none)]

def c4rg : SheetRange := SheetRange.mk 0 0 1 2

def c4row : Obj :=
  [("S.No", JSVal.str "1"), ("Job Details", JSVal.str "Fix pump"),
   ("id", JSVal.str "row-1"), ("rowNumber", JSVal.num 1),
   ("uploadDate", JSVal.str "TS")]

/-- Counterexample to C4 as stated: the header of column 3 resolves to
"ColumnX", which is neither empty nor the synthesized placeholder
"Column3" for that column, yet the admitted row record carries no
"ColumnX" field: the code skips every header that merely starts with
"Column". -/
theorem claim_C4_counterexample :
    ServerJs.extractHeaders c4ws c4rg =
      [JSVal.str "S.No", JSVal.str "Job Details", JSVal.str "ColumnX"] ∧
    ("ColumnX" : String) ≠ "" ∧
    ("ColumnX" : String) ≠ "Column" ++ toString (2 + 1) ∧
    ServerJs.normalize c4ws c4rg "TS" =
      Except.ok ([JSVal.str "S.No", JSVal.str "Job Details", JSVal.str "ColumnX"],
        [c4row]) ∧
    objGet c4row "ColumnX" = none :=
  ⟨by decide, by decide, by decide, by rfl, by decide⟩

/-- C4 as amended: a column is skipped (its loop step leaves the row
record unchanged) exactly when its header label is falsy or is a string
starting with "Column"; every synthesized placeholder starts with
"Column", and every column with a non-empty label not starting with
"Column" contributes its field. -/
theorem claim_C4_amended_column_skip :
    (∀ (ws : Worksheet) (headers : List JSVal) (sc row : Nat) (rd : Obj) (col : Nat)
      (h : String), headers.getD (col - sc) (JSVal.str "") = JSVal.str h →
      (h = "" ∨ strStartsWith h "Column" = true) →
      ServerJs.processRowCol ws headers sc row rd col = Except.ok rd) ∧
    (∀ (ws : Worksheet) (headers : List JSVal) (sc row : Nat) (rd : Obj) (col : Nat)
      (h : String), headers.getD (col - sc) (JSVal.str "") = JSVal.str h →
      h ≠ "" → strStartsWith h "Column" = false →
      ∃ rd', ServerJs.processRowCol ws headers sc row rd col = Except.ok rd' ∧
        objGet rd' (ServerJs.cleanHeaderName h) =
          some (jsOr (ServerJs.getFormattedCellValue ws row col) (JSVal.str ""))) ∧
    (∀ n : Nat, strStartsWith ("Column" ++ toString (n + 1)) "Column" = true) := by
  refine ⟨?_, ?_, ?_⟩
  · intro ws headers sc row rd col h hh hsk
    rcases hsk with rfl | hcol
    · simp only [ServerJs.processRowCol, hh]
      rw [if_pos (show (!jsTruthy (JSVal.str "")) = true by decide)]
    · simp only [ServerJs.processRowCol, hh]
      by_cases hht : jsTruthy (JSVal.str h) = true
      · simp only [hht, Bool.not_true, Bool.false_eq_true, if_false]
        rw [if_pos hcol]
      · rw [if_pos (by rw [eq_false_of_ne_true hht]; rfl)]
  · intro ws headers sc row rd col h hh hne hcol
    have ht : jsTruthy (JSVal.str h) = true := by simp [jsTruthy, hne]
    simp only [ServerJs.processRowCol, hh, ht, Bool.not_true, Bool.false_eq_true,
      if_false, hcol]
    by_cases hmem : ServerJs.cleanHeaderName h ∈ ["S.No", "Job Details", "Comments"]
    · rw [if_pos hmem]
      exact ⟨_, rfl, objGet_objSet_self _ _ _⟩
    · rw [if_neg hmem]
      refine ⟨_, rfl, ?_⟩
      rw [objGet_objSet_ne _ _ _ _ ((ne_append_suffix _ "_type" (by decide)).symm),
        objGet_objSet_ne _ _ _ _ ((ne_append_suffix _ "_color" (by decide)).symm),
        objGet_objSet_ne _ _ _ _ ((ne_append_suffix _ "_status" (by decide)).symm),
        objGet_objSet_self]
  · intro n
    unfold strStartsWith
    rw [String.data_append]
    exact startsWithList_append _ _

/-- Witness for C4 (amended): a "Column5" header is skipped, a "Notes"
header contributes its field. -/
theorem claim_C4_amended_column_skip_witness :
    ServerJs.processRowCol (wsOfList []) [JSVal.str "Column5"] 0 1 [] 0 = Except.ok [] ∧
    (∃ rd', ServerJs.processRowCol (wsOfList [(1, 0, Cell.mk (some "x") none)])
        [JSVal.str "Notes"] 0 1 [] 0 = Except.ok rd' ∧
      objGet rd' "Notes" = some (JSVal.str "x")) := by
  constructor
  · exact claim_C4_amended_column_skip.1 (wsOfList []) [JSVal.str "Column5"] 0 1 [] 0
      "Column5" rfl (Or.inr (by decide))
  · obtain ⟨rd', heq, hget⟩ := claim_C4_amended_column_skip.2.1
      (wsOfList [(1, 0, Cell.mk (some "x") none)]) [JSVal.str "Notes"] 0 1 [] 0 "Notes"
      rfl (by decide) (by decide)
    exact ⟨rd', heq, hget⟩

instance : IsTotal Obj ServerJs.rowLe :=
  ⟨fun a b => le_total (ServerJs.rowNumberOf a) (ServerJs.rowNumberOf b)⟩

instance : IsTrans Obj ServerJs.rowLe :=
  ⟨fun _ _ _ hab hbc => le_trans hab hbc⟩

/-- Inverting a successful pipeline run into its stages. -/
theorem ServerJs.normalize_ok (ws : Worksheet) (rg : SheetRange) (ts : String)
    (hs : List JSVal) (rows : List Obj)
    (h : ServerJs.normalize ws rg ts = Except.ok (hs, rows)) :
    hs = ServerJs.extractHeaders ws rg ∧
    ∃ jsonData, ServerJs.processRows ws rg (ServerJs.extractHeaders ws rg) ts =
        Except.ok jsonData ∧ rows = ServerJs.sortRows jsonData := by
  simp only [ServerJs.normalize] at h
  cases hp : ServerJs.processRows ws rg (ServerJs.extractHeaders ws rg) ts with
  | error e =>
    rw [hp] at h
    exact Except.noConfusion h
  | ok jsonData =>
    rw [hp] at h
    have h2 : (ServerJs.extractHeaders ws rg, ServerJs.sortRows jsonData) = (hs, rows) :=
      Except.ok.inj h
    injection h2 with h3 h4
    exact ⟨h3.symm, jsonData, rfl, h4.symm⟩

/-- Inserting a row into a list does not disturb the sublist of rows with
any given sort key: rows with a smaller key are passed over, and the
inserted row lands before any position whose key it shares. -/
theorem filter_orderedInsert_rowEq (a : Obj) (l : List Obj) (q : ℚ) :
    (List.orderedInsert ServerJs.rowLe a l).filter
        (fun r => decide (ServerJs.rowNumberOf r = q)) =
      if ServerJs.rowNumberOf a = q
      then a :: l.filter (fun r => decide (ServerJs.rowNumberOf r = q))
      else l.filter (fun r => decide (ServerJs.rowNumberOf r = q)) := by
  induction l with
  | nil =>
    simp only [List.orderedInsert]
    split_ifs with hq <;> simp [List.filter, hq]
  | cons b bs ih =>
    simp only [List.orderedInsert]
    by_cases hle : ServerJs.rowLe a b
    · rw [if_pos hle]
      by_cases hq : ServerJs.rowNumberOf a = q
      · rw [if_pos hq, List.filter_cons, if_pos (by simp [hq])]
      · rw [if_neg hq, List.filter_cons, if_neg (by simp [hq])]
    · rw [if_neg hle]
      by_cases hq : ServerJs.rowNumberOf a = q
      · have hb : ServerJs.rowNumberOf b ≠ q := by
          intro hbq
          exact hle (show ServerJs.rowNumberOf a ≤ ServerJs.rowNumberOf b by
            rw [hq, hbq])
        rw [if_pos hq, List.filter_cons, if_neg (by simp [hb]), ih, if_pos hq,
          List.filter_cons, if_neg (by simp [hb])]
      · rw [if_neg hq, List.filter_cons, ih, if_neg hq, List.filter_cons]

/-- Insertion sort is stable: it preserves the relative order of the rows
sharing any sort key. -/
theorem filter_insertionSort_rowEq (l : List Obj) (q : ℚ) :
    (List.insertionSort ServerJs.rowLe l).filter
        (fun r => decide (ServerJs.rowNumberOf r = q)) =
      l.filter (fun r => decide (ServerJs.rowNumberOf r = q)) := by
  induction l with
  | nil => rfl
  | cons a l ih =>
    simp only [List.insertionSort]
    rw [filter_orderedInsert_rowEq]
    by_cases hq : ServerJs.rowNumberOf a = q
    · rw [if_pos hq, ih, List.filter_cons, if_pos (by simp [hq])]
    · rw [if_neg hq, ih, List.filter_cons, if_neg (by simp [hq])]

/-- C5: the output row list of every successful pipeline run is sorted
ascending by the rowIndex key (`rowNumber`), and the sort is stable: for
every key value, the rows carrying it appear in the output in their
admission order. -/
theorem claim_C5_sorted_and_stable :
    ∀ (ws : Worksheet) (rg : SheetRange) (ts : String) (hs : List JSVal)
      (rows : List Obj),
      ServerJs.normalize ws rg ts = Except.ok (hs, rows) →
      rows.Pairwise ServerJs.rowLe ∧
      ∃ jsonData, ServerJs.processRows ws rg (ServerJs.extractHeaders ws rg) ts =
          Except.ok jsonData ∧ rows = ServerJs.sortRows jsonData ∧
        ∀ q : ℚ, rows.filter (fun r => decide (ServerJs.rowNumberOf r = q)) =
          jsonData.filter (fun r => decide (ServerJs.rowNumberOf r = q)) := by
  intro ws rg ts hs rows hnorm
  obtain ⟨-, jsonData, hp, hrows⟩ := ServerJs.normalize_ok ws rg ts hs rows hnorm
  subst hrows
  refine ⟨List.sorted_insertionSort ServerJs.rowLe jsonData, jsonData, hp, rfl, ?_⟩
  intro q
  exact filter_insertionSort_rowEq jsonData q

/-- Grid for the C5 witness: serial numbers 2, 1, 2, so the output must
sort ascending and keep the two rowIndex-2 rows in admission order. -/
def c5ws : Worksheet := wsOfList [
  (0, 0, Cell.mk (some "S.No") none), (0, 1, Cell.mk (some "Job Details") none),
  (1, 0, Cell.mk (some "2") none), (1, 1, Cell.mk (some "taskA") none),
  (2, 0, Cell.mk (some "1") none), (2, 1, Cell.mk (some "taskB") none),
  (3, 0, Cell.mk (some "2") none), (3, 1, Cell.mk (some "taskC") none)]

def c5row (sNo job ts : String) (n : ℚ) : Obj :=
  [("S.No", JSVal.str sNo), ("Job Details", JSVal.str job),
   ("id", JSVal.str ("row-" ++ sNo)), ("rowNumber", JSVal.num n),
   ("uploadDate", JSVal.str ts)]

/-- Witness for C5: on the concrete grid, the output is sorted and the
two equal-key rows keep their admission order (taskA before taskC). -/
theorem claim_C5_sorted_and_stable_witness :
    ServerJs.normalize c5ws (SheetRange.mk 0 0 3 1) "TS" =
      Except.ok ([JSVal.str "S.No", JSVal.str "Job Details"],
        [c5row "1" "taskB" "TS" 1, c5row "2" "taskA" "TS" 2,
         c5row "2" "taskC" "TS" 2]) ∧
    ([c5row "1" "taskB" "TS" 1, c5row "2" "taskA" "TS" 2,
      c5row "2" "taskC" "TS" 2] : List Obj).Pairwise ServerJs.rowLe :=
  ⟨by rfl,
   (claim_C5_sorted_and_stable c5ws (SheetRange.mk 0 0 3 1) "TS"
     [JSVal.str "S.No", JSVal.str "Job Details"]
     [c5row "1" "taskB" "TS" 1, c5row "2" "taskA" "TS" 2, c5row "2" "taskC" "TS" 2]
     (by rfl)).1⟩

/-- Grid for C1: serial "3" with a job-details value that is blank after
trimming. -/
def c1wsA : Worksheet := wsOfList [
  (0, 0, Cell.mk (some "S.No") none), (0, 1, Cell.mk (some "Job Details") none),
  (1, 0, Cell.mk (some "3") none), (1, 1, Cell.mk (some "  ") none)]

/-- Grid for C1: non-numeric serial "abc" with a non-blank job detail. -/
def c1wsB : Worksheet := wsOfList [
  (0, 0, Cell.mk (some "S.No") none), (0, 1, Cell.mk (some "Job Details") none),
  (1, 0, Cell.mk (some "abc") none), (1, 1, Cell.mk (some "Fix pump") none)]

/-- C1: a row record appears in the normalized output iff its candidate
record satisfies the admission predicate (serial-number field present,
non-empty and parsing as a number; job-details field present and
non-blank after trimming), in which case the output record is its
finalized form; rejected rows are dropped with the run still succeeding.
In particular the rows (SerialNumber "3", JobDetails "  ") and
(SerialNumber "abc", JobDetails "Fix pump") are excluded. -/
theorem claim_C1_admission_iff :
    (∀ (ws : Worksheet) (rg : SheetRange) (ts : String) (hs : List JSVal)
      (rows : List Obj) (r : Obj),
      ServerJs.normalize ws rg ts = Except.ok (hs, rows) →
      (r ∈ rows ↔ ∃ row ∈ List.range' (rg.sr + 1) (rg.er - rg.sr), ∃ rd,
        ServerJs.buildRowData ws rg (ServerJs.extractHeaders ws rg) row =
          Except.ok rd ∧
        specAdmission rd ∧ r = ServerJs.finalizeRow ts rd)) ∧
    ServerJs.normalize c1wsA (SheetRange.mk 0 0 1 1) "TS" =
      Except.ok ([JSVal.str "S.No", JSVal.str "Job Details"], []) ∧
    ServerJs.normalize c1wsB (SheetRange.mk 0 0 1 1) "TS" =
      Except.ok ([JSVal.str "S.No", JSVal.str "Job Details"], []) := by
  refine ⟨?_, by rfl, by rfl⟩
  intro ws rg ts hs rows r hnorm
  obtain ⟨-, jsonData, hp, hrows⟩ := ServerJs.normalize_ok ws rg ts hs rows hnorm
  subst hrows
  rw [show ServerJs.sortRows jsonData = List.insertionSort ServerJs.rowLe jsonData
    from rfl, List.mem_insertionSort,
    ServerJs.processRows_mem ws rg (ServerJs.extractHeaders ws rg) ts jsonData hp r]
  constructor
  · rintro ⟨row, hrow, rd, hbuild, hadmit⟩
    obtain ⟨hspec, heq⟩ := (ServerJs.admitRow_iff ts rd
      (ServerJs.buildRowData_noZeroNum ws rg (ServerJs.extractHeaders ws rg) row rd
        hbuild) r).mp hadmit
    exact ⟨row, hrow, rd, hbuild, hspec, heq⟩
  · rintro ⟨row, hrow, rd, hbuild, hspec, heq⟩
    exact ⟨row, hrow, rd, hbuild, (ServerJs.admitRow_iff ts rd
      (ServerJs.buildRowData_noZeroNum ws rg (ServerJs.extractHeaders ws rg) row rd
        hbuild) r).mpr ⟨hspec, heq⟩⟩

/-- Grid for the C1 witness: one admissible row. -/
def c1wsW : Worksheet := wsOfList [
  (0, 0, Cell.mk (some "S.No") none), (0, 1, Cell.mk (some "Job Details") none),
  (1, 0, Cell.mk (some "7") none), (1, 1, Cell.mk (some "Fix pump") none)]

/-- Witness for C1: on a concrete grid, the single output row decomposes
into an admissible candidate row of the data range. -/
theorem claim_C1_admission_iff_witness :
    ∃ row ∈ List.range' 1 1, ∃ rd,
      ServerJs.buildRowData c1wsW (SheetRange.mk 0 0 1 1)
        (ServerJs.extractHeaders c1wsW (SheetRange.mk 0 0 1 1)) row = Except.ok rd ∧
      specAdmission rd ∧
      c5row "7" "Fix pump" "TS" 7 = ServerJs.finalizeRow "TS" rd :=
  (claim_C1_admission_iff.1 c1wsW (SheetRange.mk 0 0 1 1) "TS"
      [JSVal.str "S.No", JSVal.str "Job Details"] [c5row "7" "Fix pump" "TS" 7]
      (c5row "7" "Fix pump" "TS" 7) (by rfl)).mp (by simp)

/-- C8: the two transcribed normalization pipelines — the serverless
handler's and the Express route's — are extensionally equal: on every
worksheet, range and timestamp they produce the same headers and the same
ordered row records (the duplicated source code is identical line for
line, so the transcriptions are definitionally equal). -/
theorem claim_C8_duplicated_pipelines_equal :
    ∀ (ws : Worksheet) (rg : SheetRange) (ts : String),
      ApiUpload.normalize ws rg ts = ServerJs.normalize ws rg ts :=
  fun _ _ _ => rfl

/-- Exit paths of one upload request, as the two handlers distinguish
them: the multipart parse fails; no file field is present; the file's
MIME type is rejected; reading/decoding the spreadsheet throws; or
processing succeeds. -/
inductive UploadOutcome where
  | parseFail
  | noFile
  | badMime
  | decodeFail
  | success
deriving DecidableEq, Repr

namespace ApiUpload

/-- Whether the serverless handler has a saved temp file at the given
exit: multiparty writes the upload to disk during parsing, so every exit
reached with a file present has one on disk. -/
def tempFileSaved : UploadOutcome → Bool
  | UploadOutcome.parseFail => false
  | UploadOutcome.noFile => false
  | _ => true

/-- Which exits of the serverless handler call `fs.unlinkSync` on the
temp file: the MIME-rejection branch and the success path do; the catch
block that answers decode/processing failures does not. -/
def tempFileDeleted : UploadOutcome → Bool
  | UploadOutcome.badMime => true
  | UploadOutcome.success => true
  | _ => false

/-- A temp file remains after the handler returns iff it was saved and
never deleted. -/
def tempFileRemains (o : UploadOutcome) : Bool :=
  tempFileSaved o && ! tempFileDeleted o

end ApiUpload

namespace ServerJs

/-- Whether the Express route has a saved temp file at the given exit:
multer's fileFilter rejects a bad MIME type before anything is stored, so
only decode failures and successes reach the route with a file on
disk. -/
def tempFileSaved : UploadOutcome → Bool
  | UploadOutcome.decodeFail => true
  | UploadOutcome.success => true
  | _ => false

/-- Which exits of the Express route delete the temp file: the success
path unlinks it, and the catch block unlinks it when it exists. -/
def tempFileDeleted : UploadOutcome → Bool
  | UploadOutcome.decodeFail => true
  | UploadOutcome.success => true
  | _ => false

/-- A temp file remains after the route returns iff it was saved and
never deleted. -/
def tempFileRemains (o : UploadOutcome) : Bool :=
  tempFileSaved o && ! tempFileDeleted o

end ServerJs

/-- C9 evaluated on the failing path: after a decode failure the
serverless handler leaves its temp file on disk (its catch block has no
`unlinkSync`), contradicting the claim that every exit path deletes it;
the Express route does delete the file on every exit path. -/
theorem claim_C9_temp_file_leak :
    ApiUpload.tempFileRemains UploadOutcome.decodeFail = true ∧
    (∀ o, ServerJs.tempFileRemains o = false) :=
  ⟨rfl, fun o => by cases o <;> rfl⟩

/-- Grid for C10: the serial-number cell holds the whitespace-only string
"  " and the job-details cell is non-blank. -/
def c10ws : Worksheet := wsOfList [
  (0, 0, Cell.mk (some "S.No") none), (0, 1, Cell.mk (some "Job Details") none),
  (1, 0, Cell.mk (some "  ") none), (1, 1, Cell.mk (some "Fix pump") none)]

/-- C10: a candidate row whose serial-number field is a non-empty
whitespace-only string and whose job-details field is non-blank passes
the admission test — the `Number` coercion maps a whitespace-only string
to 0 rather than NaN — and is finalized with `rowNumber` 0 and id
`"row-"` followed by the whitespace string; the concrete grid with serial
"  " is normalized to exactly that row. -/
theorem claim_C10_whitespace_serial_admitted :
    (∀ (ts : String) (rd : Obj) (s : String) (j : JSVal),
      objGet rd "S.No" = some (JSVal.str s) → s ≠ "" → jsTrim s = "" →
      objGet rd "Job Details" = some j → jsTruthy j = true →
      jsTrim (jsToString j) ≠ "" →
      jsStringToNumber s = some 0 ∧
      ServerJs.admitRow ts rd = some (ServerJs.finalizeRow ts rd) ∧
      objGet (ServerJs.finalizeRow ts rd) "rowNumber" = some (JSVal.num 0) ∧
      objGet (ServerJs.finalizeRow ts rd) "id" = some (JSVal.str ("row-" ++ s))) ∧
    ServerJs.normalize c10ws (SheetRange.mk 0 0 1 1) "TS" =
      Except.ok ([JSVal.str "S.No", JSVal.str "Job Details"],
        [[("S.No", JSVal.str "  "), ("Job Details", JSVal.str "Fix pump"),
          ("id", JSVal.str "row-  "), ("rowNumber", JSVal.num 0),
          ("uploadDate", JSVal.str "TS")]]) := by
  refine ⟨?_, by rfl⟩
  intro ts rd s j hs hne htrim hj hjt hjtrim
  have hnum : jsStringToNumber s = some 0 := by
    unfold jsStringToNumber
    rw [htrim]
    rfl
  have hcond : (jsTruthyO (objGet rd "S.No") && jsTruthyO (objGet rd "Job Details")
      && (jsToNumberO (objGet rd "S.No")).isSome
      && decide (jsTrim (jsToStringO (objGet rd "Job Details")) ≠ "")) = true := by
    rw [hs, hj]
    have hst : jsTruthy (JSVal.str s) = true := by simp [jsTruthy, hne]
    simp [jsTruthyO, jsToNumberO, jsToStringO, jsToNumber, hnum, hjt, hst, hjtrim]
  have hadmit : ServerJs.admitRow ts rd = some (ServerJs.finalizeRow ts rd) := by
    unfold ServerJs.admitRow
    rw [if_pos hcond]
  have hrowNum : (jsToNumberO (objGet rd "S.No")).getD 0 = 0 := by
    rw [hs]
    simp [jsToNumberO, jsToNumber, hnum]
  refine ⟨hnum, hadmit, ?_, ?_⟩
  · unfold ServerJs.finalizeRow
    rw [objGet_objSet_ne _ _ _ _ (by decide), objGet_objSet_self, hrowNum]
  · unfold ServerJs.finalizeRow
    rw [objGet_objSet_ne _ _ _ _ (by decide), objGet_objSet_ne _ _ _ _ (by decide),
      objGet_objSet_self, hs]
    rfl

/-- Witness for C10 at the concrete candidate record with serial "  ". -/
theorem claim_C10_whitespace_serial_admitted_witness :
    jsStringToNumber "  " = some 0 ∧
    ServerJs.admitRow "TS" [("S.No", JSVal.str "  "), ("Job Details", JSVal.str "Fix pump")] =
      some (ServerJs.finalizeRow "TS"
        [("S.No", JSVal.str "  "), ("Job Details", JSVal.str "Fix pump")]) ∧
    objGet (ServerJs.finalizeRow "TS"
        [("S.No", JSVal.str "  "), ("Job Details", JSVal.str "Fix pump")]) "rowNumber" =
      some (JSVal.num 0) ∧
    objGet (ServerJs.finalizeRow "TS"
        [("S.No", JSVal.str "  "), ("Job Details", JSVal.str "Fix pump")]) "id" =
      some (JSVal.str "row-  ") :=
  claim_C10_whitespace_serial_admitted.1 "TS"
    [("S.No", JSVal.str "  "), ("Job Details", JSVal.str "Fix pump")]
    "  " (JSVal.str "Fix pump") (by decide) (by decide) (by decide) (by decide)
    (by decide) (by decide)
